import Mathlib

/-!
Verification of the movie identity-resolution and enrichment core of the
simkl-plex-tautulli-to-letterboxd repository.

The embedding translates `src/models.py` (the `Movie` value type with its
`__eq__` / `__hash__`) and `src/enrichment/tmdb.py` (the `TMDBClient`
resolver: `enrich_movie`, `_find_best_match`, and the client methods
`find_by_imdb_id` / `search_movie`) into Lean.

Modelling conventions:
- Python `Optional[int]` / `Optional[str]` become `Option Int` / `Option String`.
- Python truthiness is modelled explicitly: an optional int is truthy when it
  is present and nonzero (`truthyI`), an optional string when present and
  nonempty (`truthyS`), a list when nonempty.
- The HTTP catalog is an oracle `Catalog`: one function per endpoint the
  client's `_get` reaches, with typed response shapes mirroring the fields
  the code reads.  A `none` response covers both transport errors and
  not-found (the code's `_get` converts `RequestException` to `None`).
- `int(s[:4])` with `except (ValueError, TypeError): pass` is modelled by
  `parseYear4`, returning `none` on parse failure.
- The dictionary access `p["name"]` on a crew entry (which raises `KeyError`
  in Python when the key is missing) is modelled in the `Except String`
  monad; all other accesses in the resolver use `.get` and are total.
- `enrich_movie` additionally returns the list of catalog calls it issued,
  in order, so that statements about which lookups happen are expressible.
-/

/-- A Python value as it appears inside a tuple passed to `hash` in
`Movie.__hash__` (only strings, ints and `None` occur there). -/
inductive PyVal where
  | s : String → PyVal
  | i : Int → PyVal
  | noneV : PyVal
deriving DecidableEq, Repr

/-- Truthiness of a Python `Optional[int]`: `None` and `0` are falsy. -/
def truthyI : Option Int → Bool
  | none => false
  | some n => n != 0

/-- Truthiness of a Python `Optional[str]`: `None` and `""` are falsy. -/
def truthyS : Option String → Bool
  | none => false
  | some s => s != ""

/-- Python `str.lower()`, modelled per character (ASCII case mapping;
the titles this code compares are catalog titles). -/
def pyLower (s : String) : String :=
  String.mk (s.data.map Char.toLower)

/-- The digits of a Python-`int`-parsable unsigned literal. -/
def digitsToNat : List Char → Option Nat
  | [] => none
  | cs => if cs.all Char.isDigit then some (cs.foldl (fun n c => 10 * n + c.toNat - 48) 0) else none

/-- Python `int(s)` on a short string: optional sign, then digits; `none`
models the `ValueError` raised on anything else. -/
def pyInt? (cs : List Char) : Option Int :=
  match cs with
  | '-' :: rest => (digitsToNat rest).map (fun n => -(n : Int))
  | _ => (digitsToNat cs).map (fun n => (n : Int))

/-- `src/models.py` `Movie`: title, optional year, optional TMDB id
(the spec's `primary_id`), optional IMDB id (the spec's `secondary_id`),
and a directors list. -/
structure Movie where
  title : String
  year : Option Int := none
  tmdb_id : Option Int := none
  imdb_id : Option String := none
  directors : List String := []
deriving DecidableEq, Repr

/-- `Movie.__eq__` (models.py lines 26-33): if both `tmdb_id` truthy compare
them; else if both `imdb_id` truthy compare them; else compare lowercased
titles and years.  (The `isinstance` guard is vacuous here: the model's
domain is `Movie`.) -/
def movieEq (a b : Movie) : Bool :=
  if truthyI a.tmdb_id && truthyI b.tmdb_id then a.tmdb_id == b.tmdb_id
  else if truthyS a.imdb_id && truthyS b.imdb_id then a.imdb_id == b.imdb_id
  else pyLower a.title == pyLower b.title && a.year == b.year

/-- `Movie.__hash__` (models.py lines 18-24), modelled at the level of the
tuple handed to Python's `hash`: `("tmdb", id)` if `tmdb_id` truthy, else
`("imdb", id)` if `imdb_id` truthy, else `(title.lower(), year)`.  Equal
tuples hash equal in Python, and distinct tuples are distinct buckets. -/
def movieHashKey (m : Movie) : List PyVal :=
  if truthyI m.tmdb_id then [PyVal.s "tmdb", PyVal.i (m.tmdb_id.getD 0)]
  else if truthyS m.imdb_id then [PyVal.s "imdb", PyVal.s (m.imdb_id.getD "")]
  else [PyVal.s (pyLower m.title), (match m.year with | none => PyVal.noneV | some y => PyVal.i y)]

/-- A TMDB search / find result dict, restricted to the keys the code
reads: `id`, `title`, `original_title`, `release_date`.  A missing key is
`none` (the code reads them with `.get`). -/
structure Hit where
  id : Option Int := none
  title : Option String := none
  original_title : Option String := none
  release_date : Option String := none
deriving DecidableEq, Repr

/-- Model of Python `int(s[:4])` under `try/except (ValueError, TypeError)`:
parse the first four characters as an integer, `none` on failure. -/
def parseYear4 (s : String) : Option Int :=
  pyInt? (s.data.take 4)

/-- The `result_year` computed at the top of the `_find_best_match` loop
(tmdb.py lines 192-198): `None` unless `release_date` is truthy and its
4-character prefix parses. -/
def hitYear (r : Hit) : Option Int :=
  if truthyS r.release_date then parseYear4 (r.release_date.getD "") else none

/-- The title test of `_find_best_match` (tmdb.py lines 202 and 206):
`result.get("title","").lower()` or `result.get("original_title","").lower()`
equals the lowercased given title `tl`. -/
def titleMatch (tl : String) (r : Hit) : Bool :=
  pyLower (r.title.getD "") == tl || pyLower (r.original_title.getD "") == tl

/-- `TMDBClient._find_best_match` (tmdb.py lines 180-221).  One pass over
the results checking, per hit, exact title+year then exact title; then, if
`year` truthy, one pass for a year-only match; then `results[0]`. -/
def find_best_match (results : List Hit) (title : String) (year : Option Int) : Option Hit :=
  if results.isEmpty then none
  else
    match results.find? (fun r =>
        (truthyI year && truthyI (hitYear r) && (titleMatch (pyLower title) r) && (hitYear r == year))
        || titleMatch (pyLower title) r) with
    | some r => some r
    | none =>
      match (if truthyI year then
              results.find? (fun r =>
                truthyS r.release_date && (parseYear4 (r.release_date.getD "") == year))
             else none) with
      | some r => some r
      | none => results.head?

/-- A crew entry inside `details["credits"]["crew"]`: the code reads
`p.get("job")` and `p["name"]` (the latter raising `KeyError` when absent). -/
structure CrewEntry where
  job : Option String := none
  name : Option String := none
deriving DecidableEq, Repr

/-- The response of `/movie/{id}/external_ids` (and, embedded, the
`external_ids` object appended to a details response): the code only reads
`imdb_id` from it. -/
structure ExtIds where
  imdb_id : Option String := none
deriving DecidableEq, Repr

/-- The `credits` object of a details response: the code only reads `crew`. -/
structure Credits where
  crew : List CrewEntry := []
deriving DecidableEq, Repr

/-- The response of `/movie/{id}?append_to_response=external_ids,credits`,
restricted to the keys `enrich_movie` reads.  `ext_ids` models the
`external_ids` key. -/
structure Details where
  ext_ids : Option ExtIds := none
  credits : Option Credits := none
  release_date : Option String := none
deriving DecidableEq, Repr

/-- The response of `/find/{imdb_id}`: the code reads `movie_results`
(default absent, modelled as the default `[]`, which is equally falsy). -/
structure FindResp where
  movie_results : List Hit := []
deriving DecidableEq, Repr

/-- The response of `/search/movie`: the code reads `results` with
default `[]`. -/
structure SearchResp where
  results : List Hit := []
deriving DecidableEq, Repr

/-- The catalog oracle: one function per endpoint `TMDBClient._get` reaches,
returning `none` for a transport/HTTP failure (the code's `_get` converts
`requests.RequestException` to `None`).  The search oracle's second argument
is the `year` query parameter, which the code includes only when the year is
truthy. -/
structure Catalog where
  get_movie_details : Int → Option Details
  get_ext_ids : Int → Option ExtIds
  find_resp : String → Option FindResp
  search_resp : String → Option Int → Option SearchResp

/-- One catalog HTTP call, as issued by the resolver, in order. -/
inductive Call where
  | details : Int → Call
  | ext_ids : Int → Call
  | find_imdb : String → Call
  | search : String → Option Int → Call
deriving DecidableEq, Repr

/-- `TMDBClient.find_by_imdb_id` (tmdb.py lines 59-64): returns
`movie_results[0]` when the response is there and the list nonempty. -/
def find_by_imdb_id (c : Catalog) (imdb_id : String) : Option Hit :=
  match c.find_resp imdb_id with
  | some d => match d.movie_results with
    | [] => none
    | h :: _ => some h
  | none => none

/-- `TMDBClient.search_movie` (tmdb.py lines 66-75): the `year` parameter is
sent only when truthy; a failed request yields `[]`. -/
def search_movie (c : Catalog) (title : String) (year : Option Int) : List Hit :=
  match c.search_resp title (if truthyI year then year else none) with
  | some d => d.results
  | none => []

/-- The list comprehension
`[p["name"] for p in crew if p.get("job") == "Director"]`
(tmdb.py lines 106-108 and its two copies): filter on the job, then read
`p["name"]`, raising `KeyError` when a selected entry has no name. -/
def getDirectors (crew : List CrewEntry) : Except String (List String) :=
  (crew.filter (fun p => p.job == some "Director")).mapM
    (fun p => match p.name with
      | some n => Except.ok n
      | none => Except.error "KeyError")

/-- The `external_ids.get("imdb_id")` read from a details response
(tmdb.py lines 98-100): `details.get("external_ids", {})` then the key. -/
def imdbFromDetails (d : Details) : Option String :=
  (d.ext_ids.getD {}).imdb_id

/-- The year backfill repeated at tmdb.py lines 111-115, 125-129 and
152-156: if the record's year is falsy and the hit's `release_date` truthy,
parse the first four characters; on parse failure leave the year alone. -/
def fillYear (e : Movie) (rd : Option String) : Movie :=
  if !truthyI e.year && truthyS rd then
    match parseYear4 (rd.getD "") with
    | some y => { e with year := some y }
    | none => e
  else e

/-- The `imdb_id` backfill of strategy 1 (tmdb.py lines 98-100): set it from
the details' `external_ids` only when the record's own is falsy and the
catalog's truthy. -/
def fillImdb (e : Movie) (d : Details) : Movie :=
  if !truthyS e.imdb_id && truthyS (imdbFromDetails d) then
    { e with imdb_id := imdbFromDetails d }
  else e

/-- The `directors` backfill repeated at tmdb.py lines 103-108, 135-140 and
166-171: when the record's directors list is empty, extract the "Director"
crew names (which can raise `KeyError`); otherwise leave it alone.  The
`details` presence guard of the call sites is handled at the call sites. -/
def fillDirectors (e : Movie) (d : Details) : Except String Movie :=
  if e.directors.isEmpty then
    match getDirectors (d.credits.getD {}).crew with
    | Except.error msg => Except.error msg
    | Except.ok ds => Except.ok { e with directors := ds }
  else Except.ok e

/-- Strategy 1 of `enrich_movie` (tmdb.py lines 94-118), entered when
`tmdb_id` is truthy: fetch details; if present, backfill `imdb_id`, then
`directors`, then `year`, in source order, and return; if the details call
fails the record falls through to the final `return enriched` unchanged
(strategies 2 and 3 are unreachable because `tmdb_id` is truthy). -/
def strategy1 (c : Catalog) (e : Movie) : Except String (Movie × List Call) :=
  match c.get_movie_details (e.tmdb_id.getD 0) with
  | some d =>
    match fillDirectors (fillImdb e d) d with
    | Except.error msg => Except.error msg
    | Except.ok e2 => Except.ok (fillYear e2 d.release_date, [Call.details (e.tmdb_id.getD 0)])
  | none => Except.ok (e, [Call.details (e.tmdb_id.getD 0)])

/-- Strategy 2 of `enrich_movie` (tmdb.py lines 120-141), entered when
`imdb_id` is truthy and `tmdb_id` falsy: find by IMDB id; on a hit set
`tmdb_id` from the hit's `id`, backfill `year`, and if the (new) `tmdb_id`
is truthy fetch details to backfill `directors`; on no hit fall through with
the record unchanged. -/
def strategy2 (c : Catalog) (e : Movie) : Except String (Movie × List Call) :=
  match find_by_imdb_id c (e.imdb_id.getD "") with
  | some result =>
    match fillYear { e with tmdb_id := result.id } result.release_date with
    | e2 =>
      if truthyI e2.tmdb_id then
        match c.get_movie_details (e2.tmdb_id.getD 0) with
        | some d =>
          match fillDirectors e2 d with
          | Except.error msg => Except.error msg
          | Except.ok e3 =>
            Except.ok (e3, [Call.find_imdb (e.imdb_id.getD ""),
                            Call.details (e2.tmdb_id.getD 0)])
        | none => Except.ok (e2, [Call.find_imdb (e.imdb_id.getD ""),
                                  Call.details (e2.tmdb_id.getD 0)])
      else Except.ok (e2, [Call.find_imdb (e.imdb_id.getD "")])
  | none => Except.ok (e, [Call.find_imdb (e.imdb_id.getD "")])

/-- The `imdb_id` backfill of strategy 3 (tmdb.py lines 160-162): call the
external-ids endpoint and set `imdb_id` only when the response is there and
its `imdb_id` truthy. -/
def fillImdbFromExt (c : Catalog) (tid : Int) (e : Movie) : Movie :=
  match c.get_ext_ids tid with
  | some ext => if truthyS ext.imdb_id then { e with imdb_id := ext.imdb_id } else e
  | none => e

/-- Strategy 3 of `enrich_movie` (tmdb.py lines 143-176), entered when both
ids are falsy: search by title (+truthy year); on nonempty results pick the
best match, set `tmdb_id` from it, backfill `year`, and if the new `tmdb_id`
is truthy call external-ids to backfill `imdb_id` and details to backfill
`directors`; on empty results or no best match return the record unchanged. -/
def strategy3 (c : Catalog) (e : Movie) : Except String (Movie × List Call) :=
  match search_movie c e.title e.year with
  | results =>
    if results.isEmpty then
      Except.ok (e, [Call.search e.title (if truthyI e.year then e.year else none)])
    else
      match find_best_match results e.title e.year with
      | some best =>
        match fillYear { e with tmdb_id := best.id } best.release_date with
        | e2 =>
          if truthyI e2.tmdb_id then
            match fillImdbFromExt c (e2.tmdb_id.getD 0) e2 with
            | e3 =>
              match c.get_movie_details (e2.tmdb_id.getD 0) with
              | some d =>
                match fillDirectors e3 d with
                | Except.error msg => Except.error msg
                | Except.ok e4 =>
                  Except.ok (e4, [Call.search e.title (if truthyI e.year then e.year else none),
                                  Call.ext_ids (e2.tmdb_id.getD 0),
                                  Call.details (e2.tmdb_id.getD 0)])
              | none =>
                Except.ok (e3, [Call.search e.title (if truthyI e.year then e.year else none),
                                Call.ext_ids (e2.tmdb_id.getD 0),
                                Call.details (e2.tmdb_id.getD 0)])
          else Except.ok (e2, [Call.search e.title (if truthyI e.year then e.year else none)])
      | none => Except.ok (e, [Call.search e.title (if truthyI e.year then e.year else none)])

/-- `TMDBClient.enrich_movie` (tmdb.py lines 77-178).  The fresh record
construction of lines 86-92 copies every field (the directors list copy is
content-equal; the aliasing aspect is modelled separately by `enrichHeap`),
and the three strategy blocks' guards route to exactly one strategy:
`tmdb_id` truthy to 1, else `imdb_id` truthy to 2, else 3. -/
def enrich_movie (c : Catalog) (movie : Movie) : Except String (Movie × List Call) :=
  match ({ title := movie.title, year := movie.year, tmdb_id := movie.tmdb_id,
           imdb_id := movie.imdb_id, directors := movie.directors } : Movie) with
  | enriched =>
    if truthyI enriched.tmdb_id then strategy1 c enriched
    else if truthyS enriched.imdb_id then strategy2 c enriched
    else strategy3 c enriched

/-- `find?` only looks at the predicate's values. -/
theorem find_pred_congr {α : Type} (l : List α) (p q : α → Bool)
    (hpq : ∀ a, p a = q a) : l.find? p = l.find? q := by
  induction l with
  | nil => rfl
  | cons a l ih => simp [List.find?_cons, hpq a, ih]

/-- Inside the first loop of `_find_best_match`, the tier-1 test is subsumed
by the tier-2 test on the same hit: the per-hit check is exactly the title
test. -/
theorem best_match_loop_pred (tl : String) (y : Option Int) (r : Hit) :
    ((truthyI y && truthyI (hitYear r) && (titleMatch tl r) && (hitYear r == y))
      || titleMatch tl r) = titleMatch tl r := by
  cases h : titleMatch tl r <;> simp [h]

/-- C1 (amended): the selector checks tiers 1 and 2 per hit in a single
pass, so it returns the first hit whose title or original title equals the
given title case-insensitively, regardless of year. -/
theorem find_best_match_single_pass (rs : List Hit) (t : String) (y : Option Int) (r : Hit)
    (h : rs.find? (fun hh => titleMatch (pyLower t) hh) = some r) :
    find_best_match rs t y = some r := by
  have hne : rs.isEmpty = false := by
    cases rs with
    | nil => simp [List.find?] at h
    | cons a l => rfl
  unfold find_best_match
  rw [hne]
  have hcongr := find_pred_congr rs
    (fun hh => (truthyI y && truthyI (hitYear hh) && (titleMatch (pyLower t) hh) && (hitYear hh == y))
        || titleMatch (pyLower t) hh)
    (fun hh => titleMatch (pyLower t) hh)
    (fun hh => best_match_loop_pred (pyLower t) y hh)
  simp only [Bool.false_eq_true, if_false, hcongr, h]

/-- Witness for `find_best_match_single_pass` at a concrete hit list. -/
theorem find_best_match_single_pass_witness :
    find_best_match [({ title := some "B" } : Hit), { title := some "A", id := some 3 }] "a" none
      = some { title := some "A", id := some 3 } :=
  find_best_match_single_pass _ _ _ _ (by decide)

/-- C1 counterexample: with given year 2000, the second hit is a tier-1
match (title equal and parsed year 2000) and the first hit is only a tier-2
match (title equal, year 1999), yet the selector returns the first hit: the
tiers are not each scanned over the full list. -/
theorem find_best_match_not_tiered :
    find_best_match
        [({ title := some "x", release_date := some "1999-01-01" } : Hit),
         { title := some "x", release_date := some "2000-01-01" }] "x" (some 2000)
      = some { title := some "x", release_date := some "1999-01-01" }
    ∧ titleMatch "x" ({ title := some "x", release_date := some "2000-01-01" } : Hit) = true
    ∧ hitYear ({ title := some "x", release_date := some "2000-01-01" } : Hit) = some 2000
    ∧ hitYear ({ title := some "x", release_date := some "1999-01-01" } : Hit) ≠ some 2000 := by
  refine ⟨by decide, by decide, by decide, by decide⟩

/-- The equality the claim describes, written from the claim's words (for
comparison with `movieEq`, which is translated from the code): equal when
(a) both have a primary id and they match, or (b) both have a secondary id
and they match, or (c) neither record has any id and title (case-insensitive)
and year match. -/
def claimedMovieEq (a b : Movie) : Bool :=
  (truthyI a.tmdb_id && truthyI b.tmdb_id && (a.tmdb_id == b.tmdb_id))
  || (truthyS a.imdb_id && truthyS b.imdb_id && (a.imdb_id == b.imdb_id))
  || (!truthyI a.tmdb_id && !truthyS a.imdb_id && !truthyI b.tmdb_id && !truthyS b.imdb_id
      && (pyLower a.title == pyLower b.title) && (a.year == b.year))

/-- C2 counterexample: a record with a primary id compares equal to a
record with no id of either kind (the code falls through to the title/year
comparison), which the claimed disjunction forbids. -/
theorem movie_eq_not_claimed_disjunction :
    movieEq { title := "a", year := some 2000, tmdb_id := some 5 }
            { title := "a", year := some 2000 } = true
    ∧ claimedMovieEq { title := "a", year := some 2000, tmdb_id := some 5 }
            { title := "a", year := some 2000 } = false := by
  refine ⟨by decide, by decide⟩

/-- C2 (amended): MovieRecord equality is the priority-ordered three-tier
test: if both records have a primary id that tier alone decides; otherwise
if both have a secondary id that tier decides; otherwise lowercased titles
and years decide.  A guard that does not apply (one side missing the id)
falls through rather than failing. -/
theorem movie_eq_priority (a b : Movie) :
    movieEq a b = true ↔
      ((truthyI a.tmdb_id = true ∧ truthyI b.tmdb_id = true ∧ a.tmdb_id = b.tmdb_id)
       ∨ (¬(truthyI a.tmdb_id = true ∧ truthyI b.tmdb_id = true)
          ∧ truthyS a.imdb_id = true ∧ truthyS b.imdb_id = true ∧ a.imdb_id = b.imdb_id)
       ∨ (¬(truthyI a.tmdb_id = true ∧ truthyI b.tmdb_id = true)
          ∧ ¬(truthyS a.imdb_id = true ∧ truthyS b.imdb_id = true)
          ∧ pyLower a.title = pyLower b.title ∧ a.year = b.year)) := by
  unfold movieEq
  cases h1 : truthyI a.tmdb_id <;> cases h2 : truthyI b.tmdb_id <;>
    cases h3 : truthyS a.imdb_id <;> cases h4 : truthyS b.imdb_id <;>
    simp_all

/-- The bucket selector shared by `Movie.__hash__` and (implicitly) the
guards of `Movie.__eq__`: 0 for a truthy primary id, else 1 for a truthy
secondary id, else 2. -/
def hashBucket (m : Movie) : Nat :=
  if truthyI m.tmdb_id then 0 else if truthyS m.imdb_id then 1 else 2

/-- C3 counterexample: the same pair as the equality counterexample compares
equal but lands in different hash buckets, so the hash is not consistent
with equality. -/
theorem movie_hash_not_consistent :
    movieEq { title := "a", year := some 2000, tmdb_id := some 5 }
            { title := "a", year := some 2000 } = true
    ∧ movieHashKey { title := "a", year := some 2000, tmdb_id := some 5 }
        ≠ movieHashKey { title := "a", year := some 2000 } := by
  refine ⟨by decide, by decide⟩

/-- C3 (amended): the hash is consistent with equality on pairs of records
that fall into the same hash bucket (both bucketed by primary id, both by
secondary id, or both by title/year): such records, when equal, have equal
hash keys. -/
theorem movie_hash_consistent_same_bucket (a b : Movie)
    (hb : hashBucket a = hashBucket b) (he : movieEq a b = true) :
    movieHashKey a = movieHashKey b := by
  unfold hashBucket at hb
  unfold movieEq at he
  unfold movieHashKey
  cases h1 : truthyI a.tmdb_id <;> cases h2 : truthyI b.tmdb_id <;>
    cases h3 : truthyS a.imdb_id <;> cases h4 : truthyS b.imdb_id <;>
    simp_all [Bool.and_eq_true]

/-- Witness for `movie_hash_consistent_same_bucket` at a concrete pair. -/
theorem movie_hash_consistent_same_bucket_witness :
    movieHashKey { title := "A", year := some 1999 } = movieHashKey { title := "a", year := some 1999 } :=
  movie_hash_consistent_same_bucket _ _ (by decide) (by decide)

/-- C10: MovieRecord equality as implemented is not transitive: a record A
with primary id 1 equals an id-free record B with the same title and year,
B equals a record C with primary id 2 and the same title and year, but A
does not equal C. -/
theorem movie_eq_not_transitive :
    ∃ a b c : Movie, movieEq a b = true ∧ movieEq b c = true ∧ movieEq a c = false :=
  ⟨{ title := "a", year := some 2000, tmdb_id := some 1 },
   { title := "a", year := some 2000 },
   { title := "a", year := some 2000, tmdb_id := some 2 },
   by refine ⟨by decide, by decide, by decide⟩⟩

/-- `fillYear` touches only the `year` field. -/
theorem fillYear_frame (e : Movie) (rd : Option String) :
    (fillYear e rd).title = e.title ∧ (fillYear e rd).tmdb_id = e.tmdb_id
    ∧ (fillYear e rd).imdb_id = e.imdb_id ∧ (fillYear e rd).directors = e.directors := by
  unfold fillYear
  split
  · split <;> exact ⟨rfl, rfl, rfl, rfl⟩
  · exact ⟨rfl, rfl, rfl, rfl⟩

/-- A record with a truthy year is left alone by `fillYear`. -/
theorem fillYear_of_truthy (e : Movie) (rd : Option String) (h : truthyI e.year = true) :
    fillYear e rd = e := by
  unfold fillYear
  simp [h]

/-- `fillImdb` touches only the `imdb_id` field. -/
theorem fillImdb_frame (e : Movie) (d : Details) :
    (fillImdb e d).title = e.title ∧ (fillImdb e d).tmdb_id = e.tmdb_id
    ∧ (fillImdb e d).year = e.year ∧ (fillImdb e d).directors = e.directors := by
  unfold fillImdb
  split <;> exact ⟨rfl, rfl, rfl, rfl⟩

/-- What `fillImdb` leaves in `imdb_id`. -/
theorem fillImdb_imdb (e : Movie) (d : Details) :
    (fillImdb e d).imdb_id =
      (if !truthyS e.imdb_id && truthyS (imdbFromDetails d) then imdbFromDetails d
       else e.imdb_id) := by
  unfold fillImdb
  split <;> simp_all

/-- `fillDirectors`, when it succeeds, touches only the `directors` field,
and leaves a nonempty directors list alone. -/
theorem fillDirectors_ok (e : Movie) (d : Details) (e2 : Movie)
    (h : fillDirectors e d = Except.ok e2) :
    e2.title = e.title ∧ e2.year = e.year ∧ e2.tmdb_id = e.tmdb_id ∧ e2.imdb_id = e.imdb_id
    ∧ (e.directors ≠ [] → e2.directors = e.directors) := by
  unfold fillDirectors at h
  split at h
  · split at h
    · exact absurd h (by simp)
    · cases h
      refine ⟨rfl, rfl, rfl, rfl, fun hne => ?_⟩
      simp_all [List.isEmpty_iff]
  · cases h
    exact ⟨rfl, rfl, rfl, rfl, fun _ => rfl⟩

/-- What `fillImdbFromExt` leaves in `imdb_id`. -/
theorem fillImdbFromExt_imdb (c : Catalog) (tid : Int) (e : Movie) :
    (fillImdbFromExt c tid e).imdb_id =
      (match c.get_ext_ids tid with
       | some ext => if truthyS ext.imdb_id then ext.imdb_id else e.imdb_id
       | none => e.imdb_id) := by
  unfold fillImdbFromExt
  split
  · split <;> simp_all
  · rfl

/-- `fillImdbFromExt` touches only the `imdb_id` field. -/
theorem fillImdbFromExt_frame (c : Catalog) (tid : Int) (e : Movie) :
    (fillImdbFromExt c tid e).title = e.title ∧ (fillImdbFromExt c tid e).tmdb_id = e.tmdb_id
    ∧ (fillImdbFromExt c tid e).year = e.year
    ∧ (fillImdbFromExt c tid e).directors = e.directors := by
  unfold fillImdbFromExt
  split
  · split <;> exact ⟨rfl, rfl, rfl, rfl⟩
  · exact ⟨rfl, rfl, rfl, rfl⟩

/-- Characterization of strategy 1 on success: the title and `tmdb_id` are
untouched, `imdb_id` is backfilled from the details' cross-reference exactly
when absent, a truthy year is untouched, and a nonempty directors list is
untouched. -/
theorem strategy1_char (c : Catalog) (e r : Movie) (l : List Call)
    (h : strategy1 c e = Except.ok (r, l)) :
    r.title = e.title ∧ r.tmdb_id = e.tmdb_id
    ∧ r.imdb_id = (match c.get_movie_details (e.tmdb_id.getD 0) with
        | some d => if !truthyS e.imdb_id && truthyS (imdbFromDetails d) then imdbFromDetails d
                    else e.imdb_id
        | none => e.imdb_id)
    ∧ (truthyI e.year = true → r.year = e.year)
    ∧ (e.directors ≠ [] → r.directors = e.directors) := by
  unfold strategy1 at h
  split at h
  next d hd =>
    split at h
    next msg hmsg => exact absurd h (by simp)
    next e2 hfd =>
      simp only [Except.ok.injEq, Prod.mk.injEq] at h
      obtain ⟨rfl, rfl⟩ := h.1.symm, h.2.symm
      obtain ⟨d1, d2, d3, d4, d5⟩ := fillDirectors_ok (fillImdb e d) d e2 hfd
      obtain ⟨i1, i2, i3, i4⟩ := fillImdb_frame e d
      obtain ⟨y1, y2, y3, y4⟩ := fillYear_frame e2 d.release_date
      refine ⟨by rw [y1, d1, i1], by rw [y2, d3, i2], ?_, ?_, ?_⟩
      · rw [y3, d4, fillImdb_imdb]
      · intro hy
        have he2 : truthyI e2.year = true := by rw [d2, i3]; exact hy
        rw [fillYear_of_truthy e2 d.release_date he2, d2, i3]
      · intro hne
        have hfine : (fillImdb e d).directors ≠ [] := by rw [i4]; exact hne
        rw [y4, d5 hfine, i4]
  next hd =>
    simp only [Except.ok.injEq, Prod.mk.injEq] at h
    obtain ⟨rfl, rfl⟩ := h.1.symm, h.2.symm
    exact ⟨rfl, rfl, rfl, fun _ => rfl, fun _ => rfl⟩

/-- Characterization of strategy 2 on success: the title and `imdb_id` are
untouched, `tmdb_id` becomes the found hit's `id` (or stays as it was when
no hit is found), a truthy year is untouched, and a nonempty directors list
is untouched. -/
theorem strategy2_char (c : Catalog) (e r : Movie) (l : List Call)
    (h : strategy2 c e = Except.ok (r, l)) :
    r.title = e.title ∧ r.imdb_id = e.imdb_id
    ∧ r.tmdb_id = (match find_by_imdb_id c (e.imdb_id.getD "") with
        | some hh => hh.id
        | none => e.tmdb_id)
    ∧ (truthyI e.year = true → r.year = e.year)
    ∧ (e.directors ≠ [] → r.directors = e.directors) := by
  unfold strategy2 at h
  split at h
  next result hres =>
    obtain ⟨y1, y2, y3, y4⟩ := fillYear_frame { e with tmdb_id := result.id } result.release_date
    simp only [] at h
    split at h
    · split at h
      next d hd =>
        split at h
        next msg hmsg => exact absurd h (by simp)
        next e3 hfd =>
          simp only [Except.ok.injEq, Prod.mk.injEq] at h
          obtain ⟨rfl, rfl⟩ := h.1.symm, h.2.symm
          obtain ⟨d1, d2, d3, d4, d5⟩ :=
            fillDirectors_ok (fillYear { e with tmdb_id := result.id } result.release_date) d _ hfd
          refine ⟨by rw [d1, y1], by rw [d4, y3], by rw [d3, y2], ?_, ?_⟩
          · intro hy
            have : truthyI ({ e with tmdb_id := result.id } : Movie).year = true := hy
            rw [d2, fillYear_of_truthy _ _ this]
          · intro hne
            have hne2 : (fillYear { e with tmdb_id := result.id } result.release_date).directors ≠ [] := by
              rw [y4]; exact hne
            rw [d5 hne2, y4]
      next hd =>
        simp only [Except.ok.injEq, Prod.mk.injEq] at h
        obtain ⟨rfl, rfl⟩ := h.1.symm, h.2.symm
        refine ⟨y1, y3, y2, ?_, fun hne => y4⟩
        intro hy
        have : truthyI ({ e with tmdb_id := result.id } : Movie).year = true := hy
        rw [fillYear_of_truthy _ _ this]
    · simp only [Except.ok.injEq, Prod.mk.injEq] at h
      obtain ⟨rfl, rfl⟩ := h.1.symm, h.2.symm
      refine ⟨y1, y3, y2, ?_, fun hne => y4⟩
      intro hy
      have : truthyI ({ e with tmdb_id := result.id } : Movie).year = true := hy
      rw [fillYear_of_truthy _ _ this]
  next hres =>
    simp only [Except.ok.injEq, Prod.mk.injEq] at h
    obtain ⟨rfl, rfl⟩ := h.1.symm, h.2.symm
    exact ⟨rfl, rfl, rfl, fun _ => rfl, fun _ => rfl⟩

/-- The best match, when there is one, is an element of the hit list. -/
theorem find_best_match_mem (rs : List Hit) (t : String) (y : Option Int) (b : Hit)
    (h : find_best_match rs t y = some b) : b ∈ rs := by
  unfold find_best_match at h
  split at h
  · exact absurd h (by simp)
  · split at h
    next r hr =>
      injection h with h
      subst h
      exact List.mem_of_find?_eq_some hr
    next hr =>
      split at h
      next r2 hr2 =>
        injection h with h
        subst h
        split at hr2
        · exact List.mem_of_find?_eq_some hr2
        · exact absurd hr2 (by simp)
      next hr2 =>
        cases rs <;> simp_all

/-- On a nonempty hit list the selector always chooses some hit (the final
fallback is `results[0]`). -/
theorem find_best_match_total (rs : List Hit) (t : String) (y : Option Int)
    (hne : rs.isEmpty = false) : ∃ b, find_best_match rs t y = some b ∧ b ∈ rs := by
  have hsome : (find_best_match rs t y).isSome = true := by
    unfold find_best_match
    rw [hne]
    simp only [Bool.false_eq_true, if_false]
    split
    · rfl
    · split
      · rfl
      · cases rs
        · simp at hne
        · rfl
  obtain ⟨b, hb⟩ := Option.isSome_iff_exists.mp hsome
  exact ⟨b, hb, find_best_match_mem rs t y b hb⟩

/-- Characterization of strategy 3 on success: the title is untouched, a
truthy year untouched, a nonempty directors list untouched; and either the
search came back empty and the record is returned unchanged, or a best match
`b` from the results was chosen, `tmdb_id` became `b.id`, and `imdb_id` was
backfilled from the external-ids endpoint exactly when the new `tmdb_id` is
truthy and the endpoint supplies a truthy id. -/
theorem strategy3_char (c : Catalog) (e r : Movie) (l : List Call)
    (h : strategy3 c e = Except.ok (r, l)) :
    r.title = e.title
    ∧ (truthyI e.year = true → r.year = e.year)
    ∧ (e.directors ≠ [] → r.directors = e.directors)
    ∧ ((search_movie c e.title e.year = [] ∧ r = e)
       ∨ ∃ b, b ∈ search_movie c e.title e.year
           ∧ find_best_match (search_movie c e.title e.year) e.title e.year = some b
           ∧ r.tmdb_id = b.id
           ∧ r.imdb_id = (if truthyI b.id = true then
                (match c.get_ext_ids (b.id.getD 0) with
                 | some ext => if truthyS ext.imdb_id = true then ext.imdb_id else e.imdb_id
                 | none => e.imdb_id)
               else e.imdb_id)) := by
  unfold strategy3 at h
  simp only [] at h
  split at h
  next hemp =>
    simp only [Except.ok.injEq, Prod.mk.injEq] at h
    obtain ⟨rfl, rfl⟩ := h.1.symm, h.2.symm
    exact ⟨rfl, fun _ => rfl, fun _ => rfl,
      Or.inl ⟨List.isEmpty_iff.mp hemp, rfl⟩⟩
  next hemp =>
    split at h
    next best hbest =>
      obtain ⟨y1, y2, y3, y4⟩ := fillYear_frame { e with tmdb_id := best.id } best.release_date
      split at h
      next htr =>
        obtain ⟨x1, x2, x3, x4⟩ :=
          fillImdbFromExt_frame c
            ((fillYear { e with tmdb_id := best.id } best.release_date).tmdb_id.getD 0)
            (fillYear { e with tmdb_id := best.id } best.release_date)
        have hbid : (fillYear { e with tmdb_id := best.id } best.release_date).tmdb_id = best.id := y2
        have htrb : truthyI best.id = true := by rw [← hbid]; exact htr
        split at h
        next d hd =>
          split at h
          next msg hmsg => exact absurd h (by simp)
          next e4 hfd =>
            simp only [Except.ok.injEq, Prod.mk.injEq] at h
            obtain ⟨rfl, rfl⟩ := h.1.symm, h.2.symm
            obtain ⟨d1, d2, d3, d4, d5⟩ := fillDirectors_ok _ d _ hfd
            refine ⟨by rw [d1, x1, y1], ?_, ?_, Or.inr ⟨best,
              find_best_match_mem _ _ _ _ hbest, hbest, by rw [d3, x2, y2], ?_⟩⟩
            · intro hy
              have hy2 : truthyI ({ e with tmdb_id := best.id } : Movie).year = true := hy
              rw [d2, x3, fillYear_of_truthy _ _ hy2]
            · intro hne
              have hne2 : (fillImdbFromExt c
                  ((fillYear { e with tmdb_id := best.id } best.release_date).tmdb_id.getD 0)
                  (fillYear { e with tmdb_id := best.id } best.release_date)).directors ≠ [] := by
                rw [x4, y4]; exact hne
              rw [d5 hne2, x4, y4]
            · rw [htrb, if_pos rfl, d4, fillImdbFromExt_imdb, hbid, y3]
        next hd =>
          simp only [Except.ok.injEq, Prod.mk.injEq] at h
          obtain ⟨rfl, rfl⟩ := h.1.symm, h.2.symm
          refine ⟨by rw [x1, y1], ?_, ?_, Or.inr ⟨best,
            find_best_match_mem _ _ _ _ hbest, hbest, by rw [x2, y2], ?_⟩⟩
          · intro hy
            have hy2 : truthyI ({ e with tmdb_id := best.id } : Movie).year = true := hy
            rw [x3, fillYear_of_truthy _ _ hy2]
          · intro hne
            rw [x4, y4]
          · rw [htrb, if_pos rfl, fillImdbFromExt_imdb, hbid, y3]
      next htr =>
        simp only [Except.ok.injEq, Prod.mk.injEq] at h
        obtain ⟨rfl, rfl⟩ := h.1.symm, h.2.symm
        have htrb : truthyI best.id = false := by
          have h6 : truthyI (fillYear { e with tmdb_id := best.id } best.release_date).tmdb_id
              = false := Bool.eq_false_iff.mpr htr
          rw [y2] at h6
          exact h6
        refine ⟨y1, ?_, fun hne => y4, Or.inr ⟨best,
          find_best_match_mem _ _ _ _ hbest, hbest, y2, ?_⟩⟩
        · intro hy
          have hy2 : truthyI ({ e with tmdb_id := best.id } : Movie).year = true := hy
          rw [fillYear_of_truthy _ _ hy2]
        · rw [htrb]
          simp only [Bool.false_eq_true, if_false]
          exact y3
    next hbest =>
      obtain ⟨b, hb, _⟩ := find_best_match_total (search_movie c e.title e.year) e.title e.year
        (Bool.eq_false_iff.mpr hemp)
      exact absurd hb (by rw [hbest]; simp)

/-- C9: no branch of the resolver rewrites the title: whenever `enrich_movie`
returns a record, that record's title equals the input's title, whatever the
catalog does. -/
theorem enrich_movie_title_frame (c : Catalog) (m r : Movie) (l : List Call)
    (h : enrich_movie c m = Except.ok (r, l)) : r.title = m.title := by
  unfold enrich_movie at h
  simp only [] at h
  split at h
  · exact (strategy1_char _ _ _ _ h).1
  · split at h
    · exact (strategy2_char _ _ _ _ h).1
    · exact (strategy3_char _ _ _ _ h).1

/-- Witness for `enrich_movie_title_frame` at a concrete catalog and record. -/
theorem enrich_movie_title_frame_witness :
    ({ title := "X", year := some 1999, tmdb_id := none, imdb_id := none,
       directors := [] } : Movie).title = ({ title := "X" } : Movie).title :=
  enrich_movie_title_frame
    ⟨fun _ => none, fun _ => none, fun _ => none,
     fun _ _ => some { results := [{ title := some "X", release_date := some "1999-01-01" }] }⟩
    { title := "X" } _ _ rfl

/-- C4: enrichment never overwrites a present field: a truthy `tmdb_id`,
truthy `imdb_id`, truthy `year` and nonempty `directors` of the input are
unchanged in the returned record (present = truthy in the Python sense the
code tests with). -/
theorem enrich_movie_no_overwrite (c : Catalog) (m r : Movie) (l : List Call)
    (h : enrich_movie c m = Except.ok (r, l)) :
    (truthyI m.tmdb_id = true → r.tmdb_id = m.tmdb_id)
    ∧ (truthyS m.imdb_id = true → r.imdb_id = m.imdb_id)
    ∧ (truthyI m.year = true → r.year = m.year)
    ∧ (m.directors ≠ [] → r.directors = m.directors) := by
  unfold enrich_movie at h
  simp only [] at h
  split at h
  next ht =>
    obtain ⟨c1, c2, c3, c4, c5⟩ := strategy1_char _ _ _ _ h
    refine ⟨fun _ => c2, ?_, c4, c5⟩
    intro hs
    rw [c3]
    split
    · simp [hs]
    · rfl
  next ht =>
    split at h
    next hs =>
      obtain ⟨c1, c2, c3, c4, c5⟩ := strategy2_char _ _ _ _ h
      exact ⟨fun hx => absurd hx ht, fun _ => c2, c4, c5⟩
    next hs =>
      obtain ⟨c1, c2, c3, _⟩ := strategy3_char _ _ _ _ h
      exact ⟨fun hx => absurd hx ht, fun hx => absurd hx hs, c2, c3⟩

/-- Witness for `enrich_movie_no_overwrite` at a concrete catalog and
record carrying every field. -/
theorem enrich_movie_no_overwrite_witness :
    (truthyI (some 3 : Option Int) = true
      → (some 3 : Option Int) = some 3)
    ∧ (truthyS (some "tt1" : Option String) = true
      → (some "tt1" : Option String) = some "tt1")
    ∧ (truthyI (some 1999 : Option Int) = true
      → (some 1999 : Option Int) = some 1999)
    ∧ ((["D"] : List String) ≠ [] → (["D"] : List String) = ["D"]) := by
  have h := enrich_movie_no_overwrite
    ⟨fun _ => some {}, fun _ => none, fun _ => none, fun _ _ => none⟩
    { title := "X", year := some 1999, tmdb_id := some 3, imdb_id := some "tt1",
      directors := ["D"] } _ _ rfl
  exact h

/-- C8: with a falsy primary id, a truthy secondary id, and a fruitless
cross-reference lookup, `enrich_movie` returns the input content unchanged
and issues exactly that one catalog call. -/
theorem enrich_movie_branch2_unproductive (c : Catalog) (m : Movie)
    (h1 : truthyI m.tmdb_id = false) (h2 : truthyS m.imdb_id = true)
    (h3 : find_by_imdb_id c (m.imdb_id.getD "") = none) :
    enrich_movie c m = Except.ok (m, [Call.find_imdb (m.imdb_id.getD "")]) := by
  unfold enrich_movie
  simp only []
  rw [if_neg (by simp [h1] : ¬ truthyI m.tmdb_id = true), if_pos h2]
  unfold strategy2
  rw [h3]

/-- Witness for `enrich_movie_branch2_unproductive` at a concrete catalog
and record. -/
theorem enrich_movie_branch2_unproductive_witness :
    enrich_movie ⟨fun _ => none, fun _ => none, fun _ => none, fun _ _ => none⟩
        { title := "X", imdb_id := some "tt1234567" }
      = Except.ok ({ title := "X", imdb_id := some "tt1234567" },
                   [Call.find_imdb "tt1234567"]) :=
  enrich_movie_branch2_unproductive
    ⟨fun _ => none, fun _ => none, fun _ => none, fun _ _ => none⟩
    { title := "X", imdb_id := some "tt1234567" } rfl rfl rfl

/-- The catalog exhibiting the `KeyError`: details for movie 1 carry one
crew entry with job "Director" and no name. -/
def keyErrorCatalog : Catalog :=
  ⟨fun n => if n == 1 then some { credits := some { crew := [{ job := some "Director" }] } }
            else none,
   fun _ => none, fun _ => none, fun _ _ => none⟩

/-- C6: the resolver is NOT total: a crew entry with job "Director" but no
"name" key makes the crew list comprehension raise `KeyError`, which crosses
the `enrich_movie` boundary. -/
theorem enrich_movie_keyerror :
    enrich_movie keyErrorCatalog { title := "X", tmdb_id := some 1 }
      = Except.error "KeyError" := rfl

/-- Every hit the catalog's find and search operations return carries a
truthy id (TMDB ids are positive integers; a hit missing its `id` key is
degenerate). -/
def hits_have_ids (c : Catalog) : Prop :=
  (∀ s hh, find_by_imdb_id c s = some hh → truthyI hh.id = true)
  ∧ (∀ t y hh, hh ∈ search_movie c t y → truthyI hh.id = true)

/-- Whenever the details endpoint exposes a truthy IMDB id for a movie, the
dedicated external-ids endpoint does too (the two endpoints report the same
cross-reference data). -/
def ext_consistent (c : Catalog) : Prop :=
  ∀ n d, c.get_movie_details n = some d → truthyS (imdbFromDetails d) = true →
    ∃ ext, c.get_ext_ids n = some ext ∧ truthyS ext.imdb_id = true

/-- A deterministic catalog breaking idempotence: the first search (no year
parameter) returns a hit with no id but a parsable release date, so the
first pass only fills the year; the second search (year parameter now set)
returns a hit with id 7. -/
def driftingCatalog : Catalog :=
  ⟨fun _ => none, fun _ => none, fun _ => none,
   fun t y =>
     if t == "X" && y == none then
       some { results := [{ title := some "X", release_date := some "1999-01-01" }] }
     else if t == "X" && y == some 1999 then
       some { results := [{ id := some 7, title := some "X" }] }
     else none⟩

/-- C5 counterexample: with the deterministic catalog above,
`enrich(enrich(r))` has primary id 7 while `enrich(r)` has none — the
year backfilled by the first pass changes the second pass's search query. -/
theorem enrich_movie_not_idempotent :
    enrich_movie driftingCatalog { title := "X" }
      = Except.ok ({ title := "X", year := some 1999 }, [Call.search "X" none])
    ∧ enrich_movie driftingCatalog { title := "X", year := some 1999 }
      = Except.ok ({ title := "X", year := some 1999, tmdb_id := some 7 },
                   [Call.search "X" (some 1999), Call.ext_ids 7, Call.details 7])
    ∧ (some 7 : Option Int) ≠ none := by
  refine ⟨rfl, rfl, by simp⟩

/-- The field-by-field copy built at the top of `enrich_movie` is the record
itself (structure eta). -/
theorem movie_eta (m : Movie) :
    ({ title := m.title, year := m.year, tmdb_id := m.tmdb_id, imdb_id := m.imdb_id,
       directors := m.directors } : Movie) = m := rfl

/-- C5 (amended): on a deterministic catalog whose find/search hits all
carry truthy ids and whose details and external-ids endpoints agree on IMDB
id presence, enrichment is idempotent on the identifier fields: a second
pass leaves `tmdb_id` and `imdb_id` as the first pass produced them. -/
theorem enrich_movie_idempotent_ids (c : Catalog) (m r1 r2 : Movie) (l1 l2 : List Call)
    (hid : hits_have_ids c) (hext : ext_consistent c)
    (h1 : enrich_movie c m = Except.ok (r1, l1))
    (h2 : enrich_movie c r1 = Except.ok (r2, l2)) :
    r2.tmdb_id = r1.tmdb_id ∧ r2.imdb_id = r1.imdb_id := by
  unfold enrich_movie at h1 h2
  simp only [] at h1 h2
  simp only [movie_eta] at h1 h2
  split at h1
  next hmt =>
    obtain ⟨a1, a2, a3, a4, a5⟩ := strategy1_char _ _ _ _ h1
    have hr1t : truthyI r1.tmdb_id = true := by rw [a2]; exact hmt
    split at h2
    next hrt =>
      obtain ⟨b1, b2, b3, b4, b5⟩ := strategy1_char _ _ _ _ h2
      refine ⟨b2, ?_⟩
      rw [b3]
      cases hd : c.get_movie_details (r1.tmdb_id.getD 0) with
      | none => simp [hd]
      | some d =>
        simp only [hd]
        rw [a2] at hd
        rw [hd] at a3
        by_cases hdm : truthyS (imdbFromDetails d) = true
        · have hr1s : truthyS r1.imdb_id = true := by
            rw [a3]
            by_cases hmi : truthyS m.imdb_id = true
            · simp [hmi]
            · have hmi' : truthyS m.imdb_id = false := Bool.eq_false_iff.mpr hmi
              simp [hmi', hdm]
          simp [hr1s]
        · have hdm' : truthyS (imdbFromDetails d) = false := Bool.eq_false_iff.mpr hdm
          simp [hdm']
    next hrt => exact absurd hr1t hrt
  next hmt =>
    split at h1
    next hms =>
      obtain ⟨a1, a2, a3, a4, a5⟩ := strategy2_char _ _ _ _ h1
      have hr1s : truthyS r1.imdb_id = true := by rw [a2]; exact hms
      cases hf : find_by_imdb_id c (m.imdb_id.getD "") with
      | some hh =>
        rw [hf] at a3
        have hr1t : truthyI r1.tmdb_id = true := by rw [a3]; exact hid.1 _ _ hf
        split at h2
        next hrt =>
          obtain ⟨b1, b2, b3, b4, b5⟩ := strategy1_char _ _ _ _ h2
          refine ⟨b2, ?_⟩
          rw [b3]
          cases hd : c.get_movie_details (r1.tmdb_id.getD 0) with
          | none => simp [hd]
          | some d => simp [hd, hr1s]
        next hrt => exact absurd hr1t hrt
      | none =>
        rw [hf] at a3
        have hr1t : truthyI r1.tmdb_id = false := by
          rw [a3]; exact Bool.eq_false_iff.mpr hmt
        split at h2
        next hrt => exact absurd hrt (by simp [hr1t])
        next hrt =>
          obtain ⟨b1, b2, b3, b4, b5⟩ := strategy2_char _ _ _ _ h2
          refine ⟨?_, b2⟩
          rw [b3, a2, hf]
    next hms =>
      obtain ⟨a1, a4, a5, adisj⟩ := strategy3_char _ _ _ _ h1
      cases adisj with
      | inl hleft =>
        obtain ⟨hempty, rfl⟩ := hleft
        split at h2
        next hrt => exact absurd hrt hmt
        next hrt =>
          obtain ⟨b1, b4, b5, bdisj⟩ := strategy3_char _ _ _ _ h2
          cases bdisj with
          | inl hbl => rw [hbl.2]; exact ⟨rfl, rfl⟩
          | inr hbr =>
            obtain ⟨b, hbmem, _⟩ := hbr
            rw [hempty] at hbmem
            exact absurd hbmem (List.not_mem_nil b)
      | inr hright =>
        obtain ⟨b, hbmem, hbbest, hbt, hbi⟩ := hright
        have hbid : truthyI b.id = true := hid.2 _ _ _ hbmem
        have hr1t : truthyI r1.tmdb_id = true := by rw [hbt]; exact hbid
        split at h2
        next hrt =>
          obtain ⟨c1, c2, c3, c4, c5⟩ := strategy1_char _ _ _ _ h2
          refine ⟨c2, ?_⟩
          rw [c3]
          cases hd : c.get_movie_details (r1.tmdb_id.getD 0) with
          | none => simp [hd]
          | some d =>
            simp only [hd]
            by_cases hri : truthyS r1.imdb_id = true
            · simp [hri]
            · have hri' : truthyS r1.imdb_id = false := Bool.eq_false_iff.mpr hri
              by_cases hdm : truthyS (imdbFromDetails d) = true
              · exfalso
                rw [hbt] at hd
                obtain ⟨ext, hexteq, hextt⟩ := hext _ _ hd hdm
                simp only [hbid, if_pos] at hbi
                rw [hexteq] at hbi
                simp only [hextt, if_pos] at hbi
                rw [hbi] at hri'
                rw [hextt] at hri'
                exact Bool.true_eq_false ▸ hri'
              · have hdm' : truthyS (imdbFromDetails d) = false := Bool.eq_false_iff.mpr hdm
                simp [hdm']
        next hrt => exact absurd hr1t hrt

/-- A catalog with no data at all; trivially satisfies both side conditions
of the idempotence theorem. -/
def quietCatalog : Catalog :=
  ⟨fun _ => none, fun _ => none, fun _ => none, fun _ _ => none⟩

/-- Witness for `enrich_movie_idempotent_ids` at a concrete catalog and
record. -/
theorem enrich_movie_idempotent_ids_witness :
    ({ title := "X", imdb_id := some "tt1" } : Movie).tmdb_id
        = ({ title := "X", imdb_id := some "tt1" } : Movie).tmdb_id
    ∧ ({ title := "X", imdb_id := some "tt1" } : Movie).imdb_id
        = ({ title := "X", imdb_id := some "tt1" } : Movie).imdb_id :=
  enrich_movie_idempotent_ids quietCatalog { title := "X", imdb_id := some "tt1" }
    { title := "X", imdb_id := some "tt1" } { title := "X", imdb_id := some "tt1" }
    [Call.find_imdb "tt1"] [Call.find_imdb "tt1"]
    ⟨fun s hh h => by simp [find_by_imdb_id, quietCatalog] at h,
     fun t y hh h => by simp [search_movie, quietCatalog] at h⟩
    (fun n d h => by simp [quietCatalog] at h)
    rfl rfl

/-!
Heap-level model for the mutation/aliasing contract of `enrich_movie`
(tmdb.py lines 86-92): the `directors` field of a record is an address into
a store of lists.  `movie.directors.copy()` allocates a fresh list, and each
of the three `enriched.directors = [...]` assignments rebinds the field to a
freshly allocated list (Python list displays create new objects); no
operation of the method mutates an existing list in place, so the store is
append-only.
-/

/-- A store of director lists addressed by naturals; addresses `≥ next` are
free. -/
structure Store where
  data : Nat → List String
  next : Nat

/-- Allocation: put the list at the next free address. -/
def Store.alloc (σ : Store) (xs : List String) : Store × Nat :=
  (⟨fun a => if a = σ.next then xs else σ.data a, σ.next + 1⟩, σ.next)

/-- A `Movie` whose `directors` field is an address into a `Store`. -/
structure HMovie where
  title : String
  year : Option Int := none
  tmdb_id : Option Int := none
  imdb_id : Option String := none
  directors : Nat := 0

/-- Allocation preserves every already-allocated address. -/
theorem alloc_preserve (σ : Store) (xs : List String) (a : Nat) (h : a < σ.next) :
    ((σ.alloc xs).1).data a = σ.data a := by
  simp [Store.alloc, Nat.ne_of_lt h]

/-- `fillYear` on the heap-level record: touches only `year`. -/
def fillYearH (e : HMovie) (rd : Option String) : HMovie :=
  if !truthyI e.year && truthyS rd then
    match parseYear4 (rd.getD "") with
    | some y => { e with year := some y }
    | none => e
  else e

/-- `fillImdb` on the heap-level record. -/
def fillImdbH (e : HMovie) (d : Details) : HMovie :=
  if !truthyS e.imdb_id && truthyS (imdbFromDetails d) then
    { e with imdb_id := imdbFromDetails d }
  else e

/-- `fillImdbFromExt` on the heap-level record. -/
def fillImdbFromExtH (c : Catalog) (tid : Int) (e : HMovie) : HMovie :=
  match c.get_ext_ids tid with
  | some ext => if truthyS ext.imdb_id then { e with imdb_id := ext.imdb_id } else e
  | none => e

/-- The directors backfill on the heap: emptiness is read through the store,
and the assignment allocates a fresh list and rebinds the field. -/
def fillDirectorsH (σ : Store) (e : HMovie) (d : Details) : Except String (Store × HMovie) :=
  if (σ.data e.directors).isEmpty then
    match getDirectors (d.credits.getD {}).crew with
    | Except.error msg => Except.error msg
    | Except.ok ds =>
      Except.ok ((σ.alloc ds).1, { e with directors := (σ.alloc ds).2 })
  else Except.ok (σ, e)

/-- Heap-level strategy 1 (tmdb.py lines 94-118). -/
def strategy1H (c : Catalog) (σ : Store) (e : HMovie) : Except String (Store × HMovie) :=
  match c.get_movie_details (e.tmdb_id.getD 0) with
  | some d =>
    match fillDirectorsH σ (fillImdbH e d) d with
    | Except.error msg => Except.error msg
    | Except.ok (σ2, e2) => Except.ok (σ2, fillYearH e2 d.release_date)
  | none => Except.ok (σ, e)

/-- Heap-level strategy 2 (tmdb.py lines 120-141). -/
def strategy2H (c : Catalog) (σ : Store) (e : HMovie) : Except String (Store × HMovie) :=
  match find_by_imdb_id c (e.imdb_id.getD "") with
  | some result =>
    match fillYearH { e with tmdb_id := result.id } result.release_date with
    | e2 =>
      if truthyI e2.tmdb_id then
        match c.get_movie_details (e2.tmdb_id.getD 0) with
        | some d => fillDirectorsH σ e2 d
        | none => Except.ok (σ, e2)
      else Except.ok (σ, e2)
  | none => Except.ok (σ, e)

/-- Heap-level strategy 3 (tmdb.py lines 143-176). -/
def strategy3H (c : Catalog) (σ : Store) (e : HMovie) : Except String (Store × HMovie) :=
  match search_movie c e.title e.year with
  | results =>
    if results.isEmpty then Except.ok (σ, e)
    else
      match find_best_match results e.title e.year with
      | some best =>
        match fillYearH { e with tmdb_id := best.id } best.release_date with
        | e2 =>
          if truthyI e2.tmdb_id then
            match fillImdbFromExtH c (e2.tmdb_id.getD 0) e2 with
            | e3 =>
              match c.get_movie_details (e2.tmdb_id.getD 0) with
              | some d => fillDirectorsH σ e3 d
              | none => Except.ok (σ, e3)
          else Except.ok (σ, e2)
      | none => Except.ok (σ, e)

/-- Heap-level `enrich_movie`: lines 86-92 copy the input's fields and
allocate a copy of its directors list at a fresh address; the three
strategies then run against the copy. -/
def enrichHeap (c : Catalog) (σ : Store) (movie : HMovie) : Except String (Store × HMovie) :=
  match σ.alloc (σ.data movie.directors) with
  | (σ1, a1) =>
    if truthyI movie.tmdb_id then strategy1H c σ1 { movie with directors := a1 }
    else if truthyS movie.imdb_id then strategy2H c σ1 { movie with directors := a1 }
    else strategy3H c σ1 { movie with directors := a1 }

/-- `fillYearH` does not touch the directors address. -/
theorem fillYearH_directors (e : HMovie) (rd : Option String) :
    (fillYearH e rd).directors = e.directors := by
  unfold fillYearH
  split
  · split <;> rfl
  · rfl

/-- `fillImdbH` does not touch the directors address. -/
theorem fillImdbH_directors (e : HMovie) (d : Details) :
    (fillImdbH e d).directors = e.directors := by
  unfold fillImdbH
  split <;> rfl

/-- `fillImdbFromExtH` does not touch the directors address. -/
theorem fillImdbFromExtH_directors (c : Catalog) (tid : Int) (e : HMovie) :
    (fillImdbFromExtH c tid e).directors = e.directors := by
  unfold fillImdbFromExtH
  split
  · split <;> rfl
  · rfl

/-- The directors backfill only allocates: already-allocated addresses keep
their contents, and the record's directors address is unchanged or fresh. -/
theorem fillDirectorsH_frame (σ : Store) (e : HMovie) (d : Details) (σ' : Store) (e' : HMovie)
    (h : fillDirectorsH σ e d = Except.ok (σ', e')) :
    σ.next ≤ σ'.next ∧ (∀ a, a < σ.next → σ'.data a = σ.data a)
    ∧ (e'.directors = e.directors ∨ σ.next ≤ e'.directors) := by
  unfold fillDirectorsH at h
  split at h
  · split at h
    next msg hmsg => exact absurd h (by simp)
    next ds hds =>
      simp only [Except.ok.injEq, Prod.mk.injEq] at h
      obtain ⟨rfl, rfl⟩ := h.1.symm, h.2.symm
      exact ⟨Nat.le_succ _, fun a ha => alloc_preserve σ ds a ha, Or.inr (Nat.le_refl _)⟩
  · simp only [Except.ok.injEq, Prod.mk.injEq] at h
    obtain ⟨rfl, rfl⟩ := h.1.symm, h.2.symm
    exact ⟨Nat.le_refl _, fun a _ => rfl, Or.inl rfl⟩

/-- Heap frame of strategy 1: it only allocates, and the returned record's
directors address is the input record's or fresh. -/
theorem strategy1H_frame (c : Catalog) (σ : Store) (e : HMovie) (σ' : Store) (e' : HMovie)
    (h : strategy1H c σ e = Except.ok (σ', e')) :
    σ.next ≤ σ'.next ∧ (∀ a, a < σ.next → σ'.data a = σ.data a)
    ∧ (e'.directors = e.directors ∨ σ.next ≤ e'.directors) := by
  unfold strategy1H at h
  split at h
  next d hd =>
    split at h
    next msg hmsg => exact absurd h (by simp)
    next σ2 e2 hfd =>
      simp only [Except.ok.injEq, Prod.mk.injEq] at h
      obtain ⟨rfl, rfl⟩ := h.1.symm, h.2.symm
      obtain ⟨f1, f2, f3⟩ := fillDirectorsH_frame σ (fillImdbH e d) d _ _ hfd
      refine ⟨f1, f2, ?_⟩
      rw [fillYearH_directors]
      rcases f3 with h3 | h3
      · exact Or.inl (by rw [h3, fillImdbH_directors])
      · exact Or.inr h3
  next hd =>
    simp only [Except.ok.injEq, Prod.mk.injEq] at h
    obtain ⟨rfl, rfl⟩ := h.1.symm, h.2.symm
    exact ⟨Nat.le_refl _, fun a _ => rfl, Or.inl rfl⟩

/-- Heap frame of strategy 2. -/
theorem strategy2H_frame (c : Catalog) (σ : Store) (e : HMovie) (σ' : Store) (e' : HMovie)
    (h : strategy2H c σ e = Except.ok (σ', e')) :
    σ.next ≤ σ'.next ∧ (∀ a, a < σ.next → σ'.data a = σ.data a)
    ∧ (e'.directors = e.directors ∨ σ.next ≤ e'.directors) := by
  unfold strategy2H at h
  split at h
  next result hres =>
    simp only [] at h
    split at h
    next htr =>
      split at h
      next d hd =>
        obtain ⟨f1, f2, f3⟩ := fillDirectorsH_frame σ _ d σ' e' h
        refine ⟨f1, f2, ?_⟩
        rcases f3 with h3 | h3
        · exact Or.inl (by rw [h3, fillYearH_directors])
        · exact Or.inr h3
      next hd =>
        simp only [Except.ok.injEq, Prod.mk.injEq] at h
        obtain ⟨rfl, rfl⟩ := h.1.symm, h.2.symm
        exact ⟨Nat.le_refl _, fun a _ => rfl, Or.inl (fillYearH_directors _ _)⟩
    next htr =>
      simp only [Except.ok.injEq, Prod.mk.injEq] at h
      obtain ⟨rfl, rfl⟩ := h.1.symm, h.2.symm
      exact ⟨Nat.le_refl _, fun a _ => rfl, Or.inl (fillYearH_directors _ _)⟩
  next hres =>
    simp only [Except.ok.injEq, Prod.mk.injEq] at h
    obtain ⟨rfl, rfl⟩ := h.1.symm, h.2.symm
    exact ⟨Nat.le_refl _, fun a _ => rfl, Or.inl rfl⟩

/-- Heap frame of strategy 3. -/
theorem strategy3H_frame (c : Catalog) (σ : Store) (e : HMovie) (σ' : Store) (e' : HMovie)
    (h : strategy3H c σ e = Except.ok (σ', e')) :
    σ.next ≤ σ'.next ∧ (∀ a, a < σ.next → σ'.data a = σ.data a)
    ∧ (e'.directors = e.directors ∨ σ.next ≤ e'.directors) := by
  unfold strategy3H at h
  simp only [] at h
  split at h
  next hemp =>
    simp only [Except.ok.injEq, Prod.mk.injEq] at h
    obtain ⟨rfl, rfl⟩ := h.1.symm, h.2.symm
    exact ⟨Nat.le_refl _, fun a _ => rfl, Or.inl rfl⟩
  next hemp =>
    split at h
    next best hbest =>
      split at h
      next htr =>
        split at h
        next d hd =>
          obtain ⟨f1, f2, f3⟩ := fillDirectorsH_frame σ _ d σ' e' h
          refine ⟨f1, f2, ?_⟩
          rcases f3 with h3 | h3
          · exact Or.inl (by rw [h3, fillImdbFromExtH_directors, fillYearH_directors])
          · exact Or.inr h3
        next hd =>
          simp only [Except.ok.injEq, Prod.mk.injEq] at h
          obtain ⟨rfl, rfl⟩ := h.1.symm, h.2.symm
          refine ⟨Nat.le_refl _, fun a _ => rfl, Or.inl ?_⟩
          rw [fillImdbFromExtH_directors, fillYearH_directors]
      next htr =>
        simp only [Except.ok.injEq, Prod.mk.injEq] at h
        obtain ⟨rfl, rfl⟩ := h.1.symm, h.2.symm
        exact ⟨Nat.le_refl _, fun a _ => rfl, Or.inl (fillYearH_directors _ _)⟩
    next hbest =>
      simp only [Except.ok.injEq, Prod.mk.injEq] at h
      obtain ⟨rfl, rfl⟩ := h.1.symm, h.2.symm
      exact ⟨Nat.le_refl _, fun a _ => rfl, Or.inl rfl⟩

/-- C7: `enrich_movie` is pure with respect to its argument, at the heap
level: for a well-formed input (directors address already allocated), the
store's content at the input's directors address is unchanged when the
method returns, and the returned record's directors address is a different
address (the copy made at tmdb.py line 91, or a later fresh list) — the
input's list is never mutated nor aliased by the result. -/
theorem enrich_movie_heap_frame (c : Catalog) (σ : Store) (m : HMovie) (σ' : Store) (m' : HMovie)
    (hlt : m.directors < σ.next)
    (h : enrichHeap c σ m = Except.ok (σ', m')) :
    σ'.data m.directors = σ.data m.directors ∧ m'.directors ≠ m.directors := by
  unfold enrichHeap at h
  simp only [Store.alloc] at h
  split at h
  next ht =>
    obtain ⟨f1, f2, f3⟩ := strategy1H_frame _ _ _ _ _ h
    constructor
    · rw [f2 m.directors (Nat.lt_succ_of_lt hlt)]
      simp [Nat.ne_of_lt hlt]
    · rcases f3 with h3 | h3
      · rw [h3]; exact Nat.ne_of_gt hlt
      · have h4 : σ.next + 1 ≤ m'.directors := h3
        omega
  next ht =>
    split at h
    next hs =>
      obtain ⟨f1, f2, f3⟩ := strategy2H_frame _ _ _ _ _ h
      constructor
      · rw [f2 m.directors (Nat.lt_succ_of_lt hlt)]
        simp [Nat.ne_of_lt hlt]
      · rcases f3 with h3 | h3
        · rw [h3]; exact Nat.ne_of_gt hlt
        · have h4 : σ.next + 1 ≤ m'.directors := h3
          omega
    next hs =>
      obtain ⟨f1, f2, f3⟩ := strategy3H_frame _ _ _ _ _ h
      constructor
      · rw [f2 m.directors (Nat.lt_succ_of_lt hlt)]
        simp [Nat.ne_of_lt hlt]
      · rcases f3 with h3 | h3
        · rw [h3]; exact Nat.ne_of_gt hlt
        · have h4 : σ.next + 1 ≤ m'.directors := h3
          omega

/-- Witness for `enrich_movie_heap_frame` at a concrete store and record. -/
theorem enrich_movie_heap_frame_witness :
    (Store.mk (fun a => if a = 1 then ["D"] else if a = 0 then ["D"] else []) 2).data 0
      = (Store.mk (fun a => if a = 0 then ["D"] else []) 1).data 0
    ∧ ({ title := "X", directors := 1 } : HMovie).directors
      ≠ ({ title := "X", directors := 0 } : HMovie).directors :=
  enrich_movie_heap_frame quietCatalog
    (Store.mk (fun a => if a = 0 then ["D"] else []) 1)
    { title := "X", directors := 0 } _ _ (by decide) rfl
